import Mathlib

/-!
Verification of the UpliftAI console chat client (src/console.py).

The embedding models the observable conversation state machine of
ConsoleWindow together with the streaming worker ChatWorker.  Widget
rendering (the output text area, cursors, field clearing) is outside the
model, matching the spec's stated scope; every field that the claims
mention (conversation history, client presence, streaming flag, chat
enablement, status labels) is carried explicitly.  Python semantics that
matter are modelled faithfully: str.strip, truthiness of optional delta
content, and the pop-last-if-user rollback.
-/

/-- Chat roles, the "role" field of a message dict in console.py. -/
inductive Role where
  | system
  | user
  | assistant
deriving DecidableEq, Repr, BEq

/-- One message dict: \x7b"role": ..., "content": ...\x7d. -/
structure Turn where
  role : Role
  content : String
deriving DecidableEq, Repr, BEq

/-- The fixed system turn installed by __init__ and reset_conversation. -/
def defaultSystemTurn : Turn :=
  { role := Role.system, content := "You are a helpful assistant." }

/-- The whitespace recognised by Python str.strip with no argument,
i.e. the characters for which str.isspace holds: tab through carriage
return, the separator controls U+001C-U+001F, space, next line U+0085,
no-break space U+00A0, ogham space mark U+1680, the U+2000-U+200A
spaces, line and paragraph separators U+2028 and U+2029, narrow no-break
space U+202F, medium mathematical space U+205F, and ideographic space
U+3000. -/
def pyIsSpace (c : Char) : Bool :=
  (0x09 ≤ c.val && c.val ≤ 0x0d) ||
  (0x1c ≤ c.val && c.val ≤ 0x1f) ||
  c.val = 0x20 || c.val = 0x85 || c.val = 0xa0 || c.val = 0x1680 ||
  (0x2000 ≤ c.val && c.val ≤ 0x200a) ||
  c.val = 0x2028 || c.val = 0x2029 || c.val = 0x202f ||
  c.val = 0x205f || c.val = 0x3000

/-- Python str.strip(): drop leading and trailing whitespace. -/
def pyStrip (s : String) : String :=
  String.mk (((s.data.dropWhile pyIsSpace).reverse.dropWhile pyIsSpace).reverse)

/-- Python truthiness of chunk.choices[0].delta.content: a missing (None)
or empty delta string is falsy and gets skipped by the worker loop. -/
def optTruthy : Option String → Bool
  | none => false
  | some s => s != ""

/-- Concatenation of a list of strings in order. -/
def concatAll (l : List String) : String :=
  l.foldr (· ++ ·) ""

/-- Outcome of one streaming provider call: the delta contents delivered
chunk by chunk, and, when the call raises at any point (connection setup
or mid-iteration), the exception message raised after those chunks. -/
structure StreamResult where
  chunks : List (Option String)
  error : Option String
deriving DecidableEq, Repr

/-- The for-loop in ChatWorker.run: walks the chunks accumulating
full_response, returning the emitted fragments (truthy deltas, in order)
and the final accumulated full_response. -/
def streamLoop : List (Option String) → String → List String × String
  | [], full => ([], full)
  | c :: rest, full =>
    if optTruthy c then
      let content := c.getD ""
      let r := streamLoop rest (full ++ content)
      (content :: r.1, r.2)
    else
      streamLoop rest full

/-- Qt signals emitted by ChatWorker, in emission order. -/
inductive WorkerEvent where
  | chunk_received : String → WorkerEvent
  | stream_finished : String → WorkerEvent
  | error_occurred : String → WorkerEvent
deriving DecidableEq, Repr

/-- The event sequence ChatWorker.run emits for one invocation: one
chunk_received per truthy delta, then stream_finished with the
accumulated text on normal end of stream, or error_occurred with the
exception message when the call raises. -/
def runEvents (sr : StreamResult) : List WorkerEvent :=
  let r := streamLoop sr.chunks ""
  r.1.map WorkerEvent.chunk_received ++
    match sr.error with
    | none => [WorkerEvent.stream_finished r.2]
    | some e => [WorkerEvent.error_occurred e]

/-- ChatWorker.__init__ stores the client and its own copy of the
messages list. -/
structure ChatWorker where
  client : Bool
  messages : List Turn
deriving DecidableEq, Repr

/-- ChatWorker.run: sends the worker's own messages list as the request
payload (messages=self.messages in the create call) and emits the event
sequence; it takes no window state and returns none. -/
def ChatWorker.run (w : ChatWorker) (sr : StreamResult) :
    List Turn × List WorkerEvent :=
  (w.messages, runEvents sr)

/-- Observable state of ConsoleWindow: the OpenAI client (present or
not), the conversation history, the streaming flag, whether the chat
controls are enabled, and the two labels. -/
structure ConsoleState where
  client : Bool
  messages : List Turn
  isStreaming : Bool
  chatEnabled : Bool
  statusLabel : String
  apiStatusLabel : String
deriving DecidableEq, Repr

/-- ConsoleWindow.__init__: one system turn, chat disabled unless an
environment key is present (in which case a client is constructed and
chat enabled). -/
def initState (hasEnvKey : Bool) : ConsoleState :=
  { client := hasEnvKey
    messages := [defaultSystemTurn]
    isStreaming := false
    chatEnabled := hasEnvKey
    statusLabel := "Ready"
    apiStatusLabel :=
      if hasEnvKey then "Connected (from environment)" else "Not connected" }

/-- ConsoleWindow.process_input: bail out when no client is set; strip
the input and bail out when blank; otherwise append the user turn,
disable input, set status, mark streaming, and start a worker built from
the client and a copy of the messages list.  Returns the new state and
the started worker, if any. -/
def process_input (st : ConsoleState) (input : String) :
    ConsoleState × Option ChatWorker :=
  if !st.client then
    (st, none)
  else
    let text := pyStrip input
    if text = "" then
      (st, none)
    else
      let msgs := st.messages ++ [{ role := Role.user, content := text }]
      ({ st with
          messages := msgs
          chatEnabled := false
          statusLabel := "Thinking..."
          isStreaming := true },
        some { client := st.client, messages := msgs })

/-- ConsoleWindow.handle_chunk: renders the fragment (out of model) and
sets the status label. -/
def handle_chunk (st : ConsoleState) (_chunk : String) : ConsoleState :=
  { st with statusLabel := "Streaming..." }

/-- ConsoleWindow.handle_stream_finished: clear the streaming flag,
append the assistant turn with the full response, re-enable chat, reset
the status label. -/
def handle_stream_finished (st : ConsoleState) (full : String) : ConsoleState :=
  { st with
      isStreaming := false
      messages := st.messages ++ [{ role := Role.assistant, content := full }]
      chatEnabled := true
      statusLabel := "Ready" }

/-- The guard in handle_error: self.messages and
self.messages[-1]["role"] == "user". -/
def lastRoleIsUser (msgs : List Turn) : Bool :=
  match msgs.getLast? with
  | some t => decide (t.role = Role.user)
  | none => false

/-- ConsoleWindow.handle_error: clear the streaming flag, pop the last
turn when it is a user turn, re-enable chat, set the status label. -/
def handle_error (st : ConsoleState) (_error : String) : ConsoleState :=
  { st with
      isStreaming := false
      messages :=
        if lastRoleIsUser st.messages then st.messages.dropLast
        else st.messages
      chatEnabled := true
      statusLabel := "Error - Ready to retry" }

/-- ConsoleWindow.reset_conversation: replace the history with the single
default system turn and reset the status label; nothing else changes. -/
def reset_conversation (st : ConsoleState) : ConsoleState :=
  { st with
      messages := [defaultSystemTurn]
      statusLabel := "Ready" }

/-- ConsoleWindow.set_api_key with probeOk the outcome of the
client.models.list() probe: blank or masked field text is ignored; a
successful probe installs the client and enables chat; a failed probe
clears the client and disables chat.  The conversation is never
touched. -/
def set_api_key (st : ConsoleState) (fieldText : String) (probeOk : Bool) :
    ConsoleState :=
  let key := pyStrip fieldText
  if key = "" || key = "********" then
    st
  else if probeOk then
    { st with client := true, chatEnabled := true, apiStatusLabel := "Connected" }
  else
    { st with client := false, chatEnabled := false, apiStatusLabel := "Invalid key" }

/-- Dispatch one worker signal to the connected slot. -/
def handleEvent (st : ConsoleState) : WorkerEvent → ConsoleState
  | WorkerEvent.chunk_received s => handle_chunk st s
  | WorkerEvent.stream_finished s => handle_stream_finished st s
  | WorkerEvent.error_occurred e => handle_error st e

/-- Deliver a worker's event sequence to the window, in emission order. -/
def handleEvents (st : ConsoleState) (evs : List WorkerEvent) : ConsoleState :=
  evs.foldl handleEvent st

/-- The fragments carried by the chunk_received events of a sequence. -/
def emittedFragments (evs : List WorkerEvent) : List String :=
  evs.filterMap fun e =>
    match e with
    | WorkerEvent.chunk_received s => some s
    | _ => none

/-- One full invocation: submit the input; when a worker starts, run it
on the given stream outcome and deliver its events back to the window. -/
def runInvocation (st : ConsoleState) (input : String) (sr : StreamResult) :
    ConsoleState :=
  match process_input st input with
  | (st1, none) => st1
  | (st1, some w) => handleEvents st1 (ChatWorker.run w sr).2

/-- One successful exchange: a submission followed by delivery of a
normally finishing stream's events. -/
def successfulExchange (st : ConsoleState) (input : String) (sr : StreamResult) :
    ConsoleState :=
  handleEvents (process_input st input).1 (runEvents sr)

/-- A sequence of exchanges, each a submission paired with its stream
outcome. -/
def runExchanges (st : ConsoleState) : List (String × StreamResult) → ConsoleState
  | [] => st
  | p :: rest => runExchanges (successfulExchange st p.1 p.2) rest

/-- The event-sequence shape asserted by the spec's concurrency note,
stated as written: per invocation, either fragments followed by exactly
one finished event, or a single failure event with no fragments. -/
def c4EventShape (sr : StreamResult) : Prop :=
  (∃ (frags : List String) (full : String), runEvents sr =
      frags.map WorkerEvent.chunk_received ++ [WorkerEvent.stream_finished full]) ∨
  (∃ (e : String), runEvents sr = [WorkerEvent.error_occurred e])

/-- States reachable from a fresh window by the modelled operations. -/
inductive Reachable : ConsoleState → Prop where
  | init (hasEnvKey : Bool) : Reachable (initState hasEnvKey)
  | submit (st : ConsoleState) (input : String) :
      Reachable st → Reachable (process_input st input).1
  | chunk (st : ConsoleState) (s : String) :
      Reachable st → Reachable (handle_chunk st s)
  | finished (st : ConsoleState) (full : String) :
      Reachable st → Reachable (handle_stream_finished st full)
  | failed (st : ConsoleState) (e : String) :
      Reachable st → Reachable (handle_error st e)
  | reset (st : ConsoleState) :
      Reachable st → Reachable (reset_conversation st)
  | apiKey (st : ConsoleState) (fieldText : String) (probeOk : Bool) :
      Reachable st → Reachable (set_api_key st fieldText probeOk)

/-! Helper lemmas about the worker loop and event delivery. -/

theorem concatAll_cons (a : String) (l : List String) :
    concatAll (a :: l) = a ++ concatAll l := rfl

theorem streamLoop_cons_truthy (c : Option String) (rest : List (Option String))
    (acc : String) (hc : optTruthy c = true) :
    streamLoop (c :: rest) acc =
      (c.getD "" :: (streamLoop rest (acc ++ c.getD "")).1,
        (streamLoop rest (acc ++ c.getD "")).2) := by
  simp [streamLoop, hc]

theorem streamLoop_cons_falsy (c : Option String) (rest : List (Option String))
    (acc : String) (hc : optTruthy c = false) :
    streamLoop (c :: rest) acc = streamLoop rest acc := by
  simp [streamLoop, hc]

theorem falsy_getD_empty (c : Option String) (hc : optTruthy c = false) :
    c.getD "" = "" := by
  cases c with
  | none => rfl
  | some s =>
    have hs : s = "" := by simpa [optTruthy] using hc
    simp [hs]

theorem streamLoop_snd (cs : List (Option String)) (acc : String) :
    (streamLoop cs acc).2 = acc ++ concatAll (cs.map fun c => c.getD "") := by
  induction cs generalizing acc with
  | nil => simp [streamLoop, concatAll]
  | cons c rest ih =>
    cases hc : optTruthy c with
    | true =>
      rw [streamLoop_cons_truthy c rest acc hc]
      rw [List.map_cons, concatAll_cons]
      rw [ih]
      rw [String.append_assoc]
    | false =>
      rw [streamLoop_cons_falsy c rest acc hc]
      rw [List.map_cons, concatAll_cons, falsy_getD_empty c hc]
      rw [ih]
      rfl

theorem streamLoop_join (cs : List (Option String)) (acc : String) :
    (streamLoop cs acc).2 = acc ++ concatAll (streamLoop cs acc).1 := by
  induction cs generalizing acc with
  | nil => simp [streamLoop, concatAll]
  | cons c rest ih =>
    cases hc : optTruthy c with
    | true =>
      rw [streamLoop_cons_truthy c rest acc hc]
      rw [concatAll_cons]
      rw [ih]
      rw [String.append_assoc]
    | false =>
      rw [streamLoop_cons_falsy c rest acc hc]
      exact ih acc

theorem streamLoop_fragments_truthy (cs : List (Option String)) (acc : String) :
    ((streamLoop cs acc).1.all fun s => s != "") = true := by
  induction cs generalizing acc with
  | nil => simp [streamLoop]
  | cons c rest ih =>
    cases hc : optTruthy c with
    | true =>
      have hne : (c.getD "" != "") = true := by
        cases c with
        | none => simp [optTruthy] at hc
        | some s =>
          simpa [optTruthy] using hc
      rw [streamLoop_cons_truthy c rest acc hc]
      rw [List.all_cons, hne, Bool.true_and]
      exact ih (acc ++ c.getD "")
    | false =>
      rw [streamLoop_cons_falsy c rest acc hc]
      exact ih acc

theorem emittedFragments_chunks_append (l : List String) (evs : List WorkerEvent) :
    emittedFragments (l.map WorkerEvent.chunk_received ++ evs) =
      l ++ emittedFragments evs := by
  induction l with
  | nil => rfl
  | cons a t ih =>
    have h1 : emittedFragments (List.map WorkerEvent.chunk_received (a :: t) ++ evs) =
        a :: emittedFragments (List.map WorkerEvent.chunk_received t ++ evs) := rfl
    rw [h1, ih]
    rfl

theorem emittedFragments_runEvents (sr : StreamResult) :
    emittedFragments (runEvents sr) = (streamLoop sr.chunks "").1 := by
  unfold runEvents
  cases herr : sr.error with
  | none =>
    rw [emittedFragments_chunks_append]
    simp [emittedFragments]
  | some e =>
    rw [emittedFragments_chunks_append]
    simp [emittedFragments]

theorem handleEvents_append_events (st : ConsoleState) (evs1 evs2 : List WorkerEvent) :
    handleEvents st (evs1 ++ evs2) = handleEvents (handleEvents st evs1) evs2 :=
  List.foldl_append _ _ _ _

theorem handleEvents_chunks_fields (l : List String) (st : ConsoleState) :
    (handleEvents st (l.map WorkerEvent.chunk_received)).messages = st.messages ∧
    (handleEvents st (l.map WorkerEvent.chunk_received)).client = st.client ∧
    (handleEvents st (l.map WorkerEvent.chunk_received)).isStreaming = st.isStreaming ∧
    (handleEvents st (l.map WorkerEvent.chunk_received)).chatEnabled = st.chatEnabled := by
  induction l generalizing st with
  | nil => exact ⟨rfl, rfl, rfl, rfl⟩
  | cons a t ih =>
    simpa [handleEvents, handleEvent, handle_chunk] using
      ih { st with statusLabel := "Streaming..." }

theorem handle_stream_finished_messages (s : ConsoleState) (f : String) :
    (handle_stream_finished s f).messages =
      s.messages ++ [{ role := Role.assistant, content := f }] := rfl

theorem handle_stream_finished_client (s : ConsoleState) (f : String) :
    (handle_stream_finished s f).client = s.client := rfl

theorem handleEvents_single_finished (s : ConsoleState) (f : String) :
    handleEvents s [WorkerEvent.stream_finished f] = handle_stream_finished s f := rfl

theorem handleEvents_success_messages (st : ConsoleState) (sr : StreamResult)
    (he : sr.error = none) :
    (handleEvents st (runEvents sr)).messages =
      st.messages ++ [{ role := Role.assistant,
                        content := (streamLoop sr.chunks "").2 }] ∧
    (handleEvents st (runEvents sr)).client = st.client := by
  have hrun : runEvents sr =
      (streamLoop sr.chunks "").1.map WorkerEvent.chunk_received ++
        [WorkerEvent.stream_finished (streamLoop sr.chunks "").2] := by
    unfold runEvents
    rw [he]
  rw [hrun, handleEvents_append_events, handleEvents_single_finished]
  have hf := handleEvents_chunks_fields (streamLoop sr.chunks "").1 st
  constructor
  · rw [handle_stream_finished_messages, hf.1]
  · rw [handle_stream_finished_client, hf.2.1]

theorem concat_singleton_last {α : Type} {l1 l2 : List α} {a b : α}
    (h : l1 ++ [a] = l2 ++ [b]) : a = b := by
  have h1 := congrArg List.getLast? h
  rw [List.getLast?_concat, List.getLast?_concat] at h1
  exact Option.some.inj h1

/-! Claim theorems. -/

/-- C1: for every streaming invocation that finishes normally, the
concatenation, in emission order, of the fragments emitted via
chunk_received equals the payload of the terminal stream_finished event,
and delivering the events appends exactly one assistant turn whose
content is that concatenation. -/
theorem stream_concat_roundtrip (sr : StreamResult) (st : ConsoleState)
    (he : sr.error = none) :
    runEvents sr =
      (emittedFragments (runEvents sr)).map WorkerEvent.chunk_received ++
        [WorkerEvent.stream_finished (concatAll (emittedFragments (runEvents sr)))] ∧
    (handleEvents st (runEvents sr)).messages =
      st.messages ++ [{ role := Role.assistant,
                        content := concatAll (emittedFragments (runEvents sr)) }] := by
  have hrun : runEvents sr =
      (streamLoop sr.chunks "").1.map WorkerEvent.chunk_received ++
        [WorkerEvent.stream_finished (streamLoop sr.chunks "").2] := by
    unfold runEvents
    rw [he]
  have hfr : emittedFragments (runEvents sr) = (streamLoop sr.chunks "").1 :=
    emittedFragments_runEvents sr
  have hfull : (streamLoop sr.chunks "").2 = concatAll (streamLoop sr.chunks "").1 :=
    (streamLoop_join sr.chunks "").trans rfl
  constructor
  · rw [hfr, ← hfull]
    exact hrun
  · have h2 := (handleEvents_success_messages st sr he).1
    rw [hfr, ← hfull]
    exact h2

/-- C1 witness: the spec's own scenario, fragments "Hi", " there", "!"
with an empty delta skipped. -/
theorem stream_concat_roundtrip_witness :
    runEvents { chunks := [some "Hi", some " there", none, some "!"], error := none } =
      [WorkerEvent.chunk_received "Hi", WorkerEvent.chunk_received " there",
        WorkerEvent.chunk_received "!", WorkerEvent.stream_finished "Hi there!"] ∧
    (handleEvents (initState true)
        (runEvents { chunks := [some "Hi", some " there", none, some "!"],
                     error := none })).messages =
      [defaultSystemTurn, { role := Role.assistant, content := "Hi there!" }] := by
  have h := stream_concat_roundtrip
    { chunks := [some "Hi", some " there", none, some "!"], error := none }
    (initState true) rfl
  exact ⟨h.1, h.2⟩

/-- C10: every fragment emitted via chunk_received is non-empty, and the
skipped (absent or empty) deltas do not change the accumulated full
response, which equals the concatenation of all deltas. -/
theorem fragments_nonempty_skips_preserved (sr : StreamResult) :
    ((emittedFragments (runEvents sr)).all fun s => s != "") = true ∧
    concatAll (emittedFragments (runEvents sr)) = (streamLoop sr.chunks "").2 ∧
    (streamLoop sr.chunks "").2 = concatAll (sr.chunks.map fun c => c.getD "") := by
  refine ⟨?_, ?_, ?_⟩
  · rw [emittedFragments_runEvents]
    exact streamLoop_fragments_truthy sr.chunks ""
  · rw [emittedFragments_runEvents]
    exact ((streamLoop_join sr.chunks "").trans rfl).symm
  · exact (streamLoop_snd sr.chunks "").trans rfl

/-- C4 counterexample: a stream that delivers the fragment "a" and then
raises "boom" emits a fragment event followed by a failure event, which
is neither of the claim's two allowed sequences (fragments then finished,
or a lone failure event). -/
theorem c4_shape_counterexample :
    ¬ c4EventShape { chunks := [some "a"], error := some "boom" } := by
  intro hshape
  have hev : runEvents { chunks := [some "a"], error := some "boom" } =
      [WorkerEvent.chunk_received "a", WorkerEvent.error_occurred "boom"] := rfl
  rcases hshape with ⟨frags, full, hEq⟩ | ⟨e, hEq⟩
  · rw [hev] at hEq
    have h1 : ([WorkerEvent.chunk_received "a"] ++ [WorkerEvent.error_occurred "boom"] :
        List WorkerEvent) =
        frags.map WorkerEvent.chunk_received ++ [WorkerEvent.stream_finished full] := hEq
    exact WorkerEvent.noConfusion (concat_singleton_last h1)
  · rw [hev] at hEq
    simp at hEq

/-- C4 amended: every invocation emits a (possibly empty) ordered
sequence of fragment events followed by exactly one terminal event,
which is either a finished event or a failure event, never both. -/
theorem stream_events_fragments_then_terminal (sr : StreamResult) :
    ((∃ (frags : List String) (full : String), runEvents sr =
        frags.map WorkerEvent.chunk_received ++ [WorkerEvent.stream_finished full]) ∧
      ¬ (∃ (frags : List String) (e : String), runEvents sr =
        frags.map WorkerEvent.chunk_received ++ [WorkerEvent.error_occurred e])) ∨
    ((∃ (frags : List String) (e : String), runEvents sr =
        frags.map WorkerEvent.chunk_received ++ [WorkerEvent.error_occurred e]) ∧
      ¬ (∃ (frags : List String) (full : String), runEvents sr =
        frags.map WorkerEvent.chunk_received ++ [WorkerEvent.stream_finished full])) := by
  cases herr : sr.error with
  | none =>
    have hrun : runEvents sr =
        (streamLoop sr.chunks "").1.map WorkerEvent.chunk_received ++
          [WorkerEvent.stream_finished (streamLoop sr.chunks "").2] := by
      unfold runEvents
      rw [herr]
    left
    constructor
    · exact ⟨(streamLoop sr.chunks "").1, (streamLoop sr.chunks "").2, hrun⟩
    · rintro ⟨frags, e, hEq⟩
      exact WorkerEvent.noConfusion (concat_singleton_last (hrun.symm.trans hEq))
  | some e0 =>
    have hrun : runEvents sr =
        (streamLoop sr.chunks "").1.map WorkerEvent.chunk_received ++
          [WorkerEvent.error_occurred e0] := by
      unfold runEvents
      rw [herr]
    right
    constructor
    · exact ⟨(streamLoop sr.chunks "").1, e0, hrun⟩
    · rintro ⟨frags, full, hEq⟩
      exact WorkerEvent.noConfusion (concat_singleton_last (hrun.symm.trans hEq))

/-- C2: when the conversation ends in a user turn, handle_error removes
exactly that turn, leaving length N-1; when the last turn's role is not
user, handle_error leaves the conversation unchanged. -/
theorem failure_rollback (st : ConsoleState) (e : String) :
    (∀ t, st.messages.getLast? = some t → t.role = Role.user →
      (handle_error st e).messages = st.messages.dropLast ∧
      (handle_error st e).messages.length = st.messages.length - 1) ∧
    (∀ t, st.messages.getLast? = some t → t.role ≠ Role.user →
      (handle_error st e).messages = st.messages) := by
  constructor
  · intro t ht hrole
    have hg : lastRoleIsUser st.messages = true := by
      unfold lastRoleIsUser
      rw [ht]
      simp [hrole]
    constructor
    · simp [handle_error, hg]
    · simp [handle_error, hg, List.length_dropLast]
  · intro t ht hrole
    have hg : lastRoleIsUser st.messages = false := by
      unfold lastRoleIsUser
      rw [ht]
      simpa using hrole
    simp [handle_error, hg]

/-- C2 witness: the spec's rollback scenario, system turn plus user turn
"Hello" reverting to the system turn alone on failure. -/
theorem failure_rollback_witness :
    (handle_error
        { client := true
          messages := [defaultSystemTurn, { role := Role.user, content := "Hello" }]
          isStreaming := true
          chatEnabled := false
          statusLabel := "Thinking..."
          apiStatusLabel := "Connected" } "rate limited").messages =
      [defaultSystemTurn] := by
  have h := (failure_rollback
    { client := true
      messages := [defaultSystemTurn, { role := Role.user, content := "Hello" }]
      isStreaming := true
      chatEnabled := false
      statusLabel := "Thinking..."
      apiStatusLabel := "Connected" } "rate limited").1
    { role := Role.user, content := "Hello" } rfl rfl
  exact h.1

/-- C5: a submission whose text strips to the empty string leaves the
window state (in particular the conversation) unchanged and starts no
worker, so no provider call is issued. -/
theorem blank_input_rejected (st : ConsoleState) (input : String)
    (h : pyStrip input = "") :
    process_input st input = (st, none) := by
  cases hc : st.client with
  | false => simp [process_input, hc]
  | true => simp [process_input, hc, h]

/-- C5 witness: a submission of space, no-break space, file separator,
and tab — all whitespace to Python's strip — on a fresh connected window
is a no-op. -/
theorem blank_input_rejected_witness :
    process_input (initState true) " \u00A0\u001C\t" = (initState true, none) :=
  blank_input_rejected (initState true) " \u00A0\u001C\t" (by decide)

/-- C6: resetting yields exactly the single default system turn, and
resetting twice in a row yields the same state as resetting once. -/
theorem reset_idempotent (st : ConsoleState) :
    (reset_conversation st).messages = [defaultSystemTurn] ∧
    reset_conversation (reset_conversation st) = reset_conversation st :=
  ⟨rfl, rfl⟩

/-- C9: after a failed credential probe on a non-blank, non-masked key,
the client is cleared, chat is disabled, the conversation is untouched,
and any subsequent submission is a no-op that starts no worker. -/
theorem probe_failure_gates_chat (st : ConsoleState) (keyText : String)
    (h1 : pyStrip keyText ≠ "") (h2 : pyStrip keyText ≠ "********") :
    (set_api_key st keyText false).client = false ∧
    (set_api_key st keyText false).chatEnabled = false ∧
    (set_api_key st keyText false).messages = st.messages ∧
    ∀ input, process_input (set_api_key st keyText false) input =
      (set_api_key st keyText false, none) := by
  have hs : set_api_key st keyText false =
      { st with client := false, chatEnabled := false,
                apiStatusLabel := "Invalid key" } := by
    simp [set_api_key, h1, h2]
  refine ⟨by rw [hs], by rw [hs], by rw [hs], fun input => ?_⟩
  rw [hs]
  simp [process_input]

/-- C9 witness: a failed probe on the key "sk-test" leaves a fresh
keyless window gated off and inert to a subsequent "Hello". -/
theorem probe_failure_gates_chat_witness :
    (set_api_key (initState false) "sk-test" false).client = false ∧
    (set_api_key (initState false) "sk-test" false).chatEnabled = false ∧
    (set_api_key (initState false) "sk-test" false).messages = [defaultSystemTurn] ∧
    process_input (set_api_key (initState false) "sk-test" false) "Hello" =
      (set_api_key (initState false) "sk-test" false, none) := by
  have h := probe_failure_gates_chat (initState false) "sk-test"
    (by decide) (by decide)
  exact ⟨h.1, h.2.1, h.2.2.1, h.2.2.2 "Hello"⟩

theorem head?_append_of_ne_nil {α : Type} (l l2 : List α) (hne : l ≠ []) :
    (l ++ l2).head? = l.head? := by
  cases l with
  | nil => exact absurd rfl hne
  | cons a t => rfl

theorem exchange_step (st : ConsoleState) (input : String) (sr : StreamResult)
    (hc : st.client = true) (ht : pyStrip input ≠ "") (he : sr.error = none) :
    (successfulExchange st input sr).messages =
      st.messages ++
        [{ role := Role.user, content := pyStrip input },
          { role := Role.assistant, content := (streamLoop sr.chunks "").2 }] ∧
    (successfulExchange st input sr).client = st.client := by
  have hpi : (process_input st input).1 =
      { st with
          messages := st.messages ++ [{ role := Role.user, content := pyStrip input }]
          chatEnabled := false
          statusLabel := "Thinking..."
          isStreaming := true } := by
    simp [process_input, hc, ht]
  unfold successfulExchange
  rw [hpi]
  constructor
  · rw [(handleEvents_success_messages _ sr he).1]
    simp [List.append_assoc]
  · exact (handleEvents_success_messages _ sr he).2

theorem runExchanges_spec (xs : List (String × StreamResult)) (st : ConsoleState)
    (hc : st.client = true)
    (hxs : ∀ p ∈ xs, pyStrip p.1 ≠ "" ∧ p.2.error = none) :
    (runExchanges st xs).messages =
      st.messages ++ xs.flatMap (fun p =>
        [{ role := Role.user, content := pyStrip p.1 },
          { role := Role.assistant, content := (streamLoop p.2.chunks "").2 }]) ∧
    (runExchanges st xs).client = true ∧
    (runExchanges st xs).messages.length = st.messages.length + 2 * xs.length := by
  induction xs generalizing st with
  | nil => exact ⟨by simp [runExchanges], hc, by simp [runExchanges]⟩
  | cons p rest ih =>
    have hp := hxs p (List.mem_cons_self p rest)
    have hstep := exchange_step st p.1 p.2 hc hp.1 hp.2
    have hclient : (successfulExchange st p.1 p.2).client = true := by
      rw [hstep.2, hc]
    have hrest : ∀ q ∈ rest, pyStrip q.1 ≠ "" ∧ q.2.error = none :=
      fun q hq => hxs q (List.mem_cons_of_mem p hq)
    have ihx := ih (successfulExchange st p.1 p.2) hclient hrest
    have hrw : runExchanges st (p :: rest) =
        runExchanges (successfulExchange st p.1 p.2) rest := rfl
    refine ⟨?_, ?_, ?_⟩
    · rw [hrw, ihx.1, hstep.1]
      simp [List.append_assoc]
    · rw [hrw]
      exact ihx.2.1
    · rw [hrw, ihx.2.2, hstep.1]
      simp [List.length_append]
      omega

/-- C3: a sequence of successful exchanges (connected client, non-blank
inputs, normally finishing streams) appends exactly one user turn and
then one assistant turn per exchange after the existing turns, so the
turn count grows by exactly 2 per exchange and insertion order is
preserved. -/
theorem exchanges_grow_by_two (st : ConsoleState) (xs : List (String × StreamResult))
    (hc : st.client = true)
    (hxs : ∀ p ∈ xs, pyStrip p.1 ≠ "" ∧ p.2.error = none) :
    (runExchanges st xs).messages =
      st.messages ++ xs.flatMap (fun p =>
        [{ role := Role.user, content := pyStrip p.1 },
          { role := Role.assistant, content := (streamLoop p.2.chunks "").2 }]) ∧
    (runExchanges st xs).messages.length = st.messages.length + 2 * xs.length :=
  ⟨(runExchanges_spec xs st hc hxs).1, (runExchanges_spec xs st hc hxs).2.2⟩

/-- C3 witness: one exchange from a fresh connected window, "Hello"
answered by the streamed "Hi there!", grows the conversation from 1 to 3
turns in order. -/
theorem exchanges_grow_by_two_witness :
    (runExchanges (initState true)
        [("Hello", { chunks := [some "Hi", some " there", some "!"], error := none })]).messages =
      [defaultSystemTurn, { role := Role.user, content := "Hello" },
        { role := Role.assistant, content := "Hi there!" }] ∧
    (runExchanges (initState true)
        [("Hello", { chunks := [some "Hi", some " there", some "!"], error := none })]).messages.length = 3 := by
  have h := exchanges_grow_by_two (initState true)
    [("Hello", { chunks := [some "Hi", some " there", some "!"], error := none })]
    rfl
    (by
      intro p hp
      rw [List.mem_singleton] at hp
      subst hp
      exact ⟨by decide, rfl⟩)
  refine ⟨?_, ?_⟩
  · rw [h.1]
    decide
  · rw [h.2]
    decide

theorem set_api_key_messages (st : ConsoleState) (ft : String) (ok : Bool) :
    (set_api_key st ft ok).messages = st.messages := by
  by_cases h1 : pyStrip ft = ""
  · simp [set_api_key, h1]
  · by_cases h2 : pyStrip ft = "********"
    · simp [set_api_key, h1, h2]
    · cases ok with
      | true => simp [set_api_key, h1, h2]
      | false => simp [set_api_key, h1, h2]

/-- C7: every state reachable from a fresh window by submissions, chunk
deliveries, stream completions, failure handling, resets, and key
changes has a non-empty conversation whose first element is the default
system turn. -/
theorem system_turn_invariant (st : ConsoleState) (h : Reachable st) :
    st.messages ≠ [] ∧ st.messages.head? = some defaultSystemTurn := by
  induction h with
  | init k =>
    exact ⟨by simp [initState], by simp [initState]⟩
  | submit st input hst ih =>
    obtain ⟨hne, hhd⟩ := ih
    cases hc : st.client with
    | false =>
      have hid : (process_input st input).1 = st := by
        simp [process_input, hc]
      rw [hid]
      exact ⟨hne, hhd⟩
    | true =>
      by_cases htext : pyStrip input = ""
      · have hid : (process_input st input).1 = st := by
          simp [process_input, hc, htext]
        rw [hid]
        exact ⟨hne, hhd⟩
      · have hpi : (process_input st input).1 =
            { st with
                messages :=
                  st.messages ++ [{ role := Role.user, content := pyStrip input }]
                chatEnabled := false
                statusLabel := "Thinking..."
                isStreaming := true } := by
          simp [process_input, hc, htext]
        rw [hpi]
        refine ⟨by simp, ?_⟩
        show (st.messages ++ [Turn.mk Role.user (pyStrip input)]).head? =
          some defaultSystemTurn
        rw [head?_append_of_ne_nil _ _ hne]
        exact hhd
  | chunk st s hst ih =>
    exact ih
  | finished st full hst ih =>
    obtain ⟨hne, hhd⟩ := ih
    refine ⟨by simp [handle_stream_finished], ?_⟩
    show (st.messages ++ [Turn.mk Role.assistant full]).head? =
      some defaultSystemTurn
    rw [head?_append_of_ne_nil _ _ hne]
    exact hhd
  | failed st e hst ih =>
    obtain ⟨hne, hhd⟩ := ih
    cases hg : lastRoleIsUser st.messages with
    | false =>
      have hmsgs : (handle_error st e).messages = st.messages := by
        simp [handle_error, hg]
      rw [hmsgs]
      exact ⟨hne, hhd⟩
    | true =>
      have hmsgs : (handle_error st e).messages = st.messages.dropLast := by
        simp [handle_error, hg]
      rw [hmsgs]
      cases hm : st.messages with
      | nil => exact absurd hm hne
      | cons a rest =>
        rw [hm] at hhd
        have ha : a = defaultSystemTurn := by simpa using hhd
        cases rest with
        | nil =>
          rw [hm, ha] at hg
          exact absurd hg (by decide)
        | cons b rest2 =>
          have hd : ((a :: b :: rest2).dropLast) = a :: (b :: rest2).dropLast := rfl
          rw [hd]
          exact ⟨by simp, by simp [ha]⟩
  | reset st hst ih =>
    exact ⟨by simp [reset_conversation], by simp [reset_conversation]⟩
  | apiKey st ft ok hst ih =>
    rw [set_api_key_messages]
    exact ih

/-- C7 witness: the fresh window itself satisfies the invariant. -/
theorem system_turn_invariant_witness :
    (initState true).messages ≠ [] ∧
    (initState true).messages.head? = some defaultSystemTurn :=
  system_turn_invariant (initState true) (Reachable.init true)

/-- C8: when a submission starts a worker, the worker's snapshot equals
the caller's conversation at submission time (user turn included), the
request payload it sends is exactly that snapshot, and the state the
caller holds when the worker's results arrive is exactly the post-submit
state: every conversation mutation of the invocation is applied by the
caller's handlers, none by the worker. -/
theorem worker_snapshot_frame (st : ConsoleState) (input : String) (w : ChatWorker)
    (hw : (process_input st input).2 = some w) (sr : StreamResult) :
    w.messages = (process_input st input).1.messages ∧
    (ChatWorker.run w sr).1 = (process_input st input).1.messages ∧
    runInvocation st input sr =
      handleEvents (process_input st input).1 (ChatWorker.run w sr).2 := by
  cases hc : st.client with
  | false =>
    rw [show process_input st input = (st, none) from by simp [process_input, hc]] at hw
    exact absurd hw (by simp)
  | true =>
    by_cases ht : pyStrip input = ""
    · rw [show process_input st input = (st, none) from by
        simp [process_input, hc, ht]] at hw
      exact absurd hw (by simp)
    · have hpi : process_input st input =
          (({ st with
              messages :=
                st.messages ++ [{ role := Role.user, content := pyStrip input }]
              chatEnabled := false
              statusLabel := "Thinking..."
              isStreaming := true } : ConsoleState),
            some (ChatWorker.mk true
              (st.messages ++ [{ role := Role.user, content := pyStrip input }]))) := by
        simp [process_input, hc, ht]
      have hw2 : w = ChatWorker.mk true
          (st.messages ++ [{ role := Role.user, content := pyStrip input }]) := by
        rw [hpi] at hw
        exact (Option.some.inj hw).symm
      refine ⟨?_, ?_, ?_⟩
      · rw [hpi, hw2]
      · rw [hpi, hw2]
        rfl
      · unfold runInvocation
        rw [hpi, hw2]

/-- C8 witness: submitting "Hello" on a fresh connected window. -/
theorem worker_snapshot_frame_witness :
    (ChatWorker.mk true
        [defaultSystemTurn, { role := Role.user, content := "Hello" }]).messages =
      (process_input (initState true) "Hello").1.messages ∧
    (ChatWorker.run
        (ChatWorker.mk true
          [defaultSystemTurn, { role := Role.user, content := "Hello" }])
        (StreamResult.mk [some "Hi"] none)).1 =
      (process_input (initState true) "Hello").1.messages ∧
    runInvocation (initState true) "Hello" (StreamResult.mk [some "Hi"] none) =
      handleEvents (process_input (initState true) "Hello").1
        (ChatWorker.run
          (ChatWorker.mk true
            [defaultSystemTurn, { role := Role.user, content := "Hello" }])
          (StreamResult.mk [some "Hi"] none)).2 :=
  worker_snapshot_frame (initState true) "Hello"
    (ChatWorker.mk true
      [defaultSystemTurn, { role := Role.user, content := "Hello" }])
    (by decide) (StreamResult.mk [some "Hi"] none)
